import Mathlib

/-!
Shallow embedding of the generic stack and its iterator adapters from
`stack.go` and `main.go` (Go, package main).  Methods on the pointer
receiver `*Stack[T]` become functions from a `Stack` value to a result
paired with the updated `Stack` value.  A push-style `iter.Seq[T]` iterator
becomes a function taking a consumer `yield : T → Bool` and returning the
trace of elements passed to `yield`; an `iter.Pull` cursor over a pure
snapshot sequence becomes the list of its remaining elements.  Go's
`var zero T` is `default` from an `Inhabited` instance.
-/

namespace GoStack

/-- `type Stack[T any] struct { data []T }`.  The top of the stack is the
last element of `data`. -/
structure Stack (T : Type) where
  data : List T

/-- `func NewStack[T any]() *Stack[T] { return &Stack[T]{} }` -/
def NewStack (T : Type) : Stack T := ⟨[]⟩

/-- `func (s *Stack[T]) Push(value T) { s.data = append(s.data, value) }` -/
def Push {T : Type} (s : Stack T) (value : T) : Stack T :=
  ⟨s.data ++ [value]⟩

/-- `func (s *Stack[T]) Pop() (T, bool)`: if `len(s.data) == 0` it returns
the zero value and `false` leaving the receiver untouched; otherwise it
returns `s.data[len-1]` and `true` and truncates the slice by one element.
The updated receiver is the second component. -/
def Pop {T : Type} [Inhabited T] (s : Stack T) : (T × Bool) × Stack T :=
  match s.data.getLast? with
  | none => ((default, false), s)
  | some val => ((val, true), ⟨s.data.dropLast⟩)

/-- `func (s *Stack[T]) Peek() (T, bool)`: same check as `Pop` but without
the slice truncation; the receiver comes back unchanged in both branches. -/
def Peek {T : Type} [Inhabited T] (s : Stack T) : (T × Bool) × Stack T :=
  match s.data.getLast? with
  | none => ((default, false), s)
  | some val => ((val, true), s)

/-- `func (s *Stack[T]) Len() int { return len(s.data) }` -/
def Len {T : Type} (s : Stack T) : Nat := s.data.length

/-- `func (s *Stack[T]) IsEmpty() bool { return len(s.data) == 0 }` -/
def IsEmpty {T : Type} (s : Stack T) : Bool := s.data.length == 0

/-- Body of the `iter.Seq[T]` closure returned by `All()`:
`for _, v := range s.data { if !yield(v) { return } }`, recorded as the
trace of elements passed to `yield`.  The element on which `yield` answers
`false` was still observed, so it closes the trace. -/
def allLoop {T : Type} : List T → (T → Bool) → List T
  | [], _ => []
  | v :: rest, yield => if yield v then v :: allLoop rest yield else [v]

/-- `func (s *Stack[T]) All() iter.Seq[T]`: iterate over `s.data` front to
back, i.e. bottom of the stack first. -/
def All {T : Type} (s : Stack T) (yield : T → Bool) : List T :=
  allLoop s.data yield

/-- Main loop of `Pairwise`, acting on the two pull cursors `next1` and
`next2` as the lists of their remaining elements: stop as soon as either
cursor is exhausted, otherwise draw one value from each, emit the pair and
continue. -/
def pairwiseLoop {V : Type} : List V → List V → List (V × V)
  | [], _ => []
  | _ :: _, [] => []
  | v1 :: c1, v2 :: c2 => (v1, v2) :: pairwiseLoop c1 c2

/-- `func Pairwise[V any](seq iter.Seq[V]) iter.Seq2[V, V]`: two
independent pull cursors over the same `seq`; the second one is advanced
once (`next2()`) before the loop so that it starts from the second
element. -/
def Pairwise {V : Type} (seq : List V) : List (V × V) :=
  pairwiseLoop seq (seq.drop 1)

/-- A sequence of pushes, applied in list order. -/
def pushAll {T : Type} (s : Stack T) (vs : List T) : Stack T :=
  vs.foldl Push s

/-- `m` successive `Pop` calls, collecting the returned values (in call
order) together with the final stack state. -/
def popK {T : Type} [Inhabited T] : Nat → Stack T → List T × Stack T
  | 0, s => ([], s)
  | m + 1, s =>
    let r := Pop s
    let rest := popK m r.2
    (r.1.1 :: rest.1, rest.2)

/-- Two stacks with the same underlying data are equal. -/
theorem Stack_eq {T : Type} {s t : Stack T} (h : s.data = t.data) : s = t := by
  cases s; cases t; cases h; rfl

/-- Unfolding one push. -/
theorem pushAll_cons {T : Type} (s : Stack T) (v : T) (vs : List T) :
    pushAll s (v :: vs) = pushAll (Push s v) vs := rfl

/-- Pushing appends the values behind the existing data. -/
theorem pushAll_data {T : Type} (vs : List T) :
    ∀ s : Stack T, (pushAll s vs).data = s.data ++ vs := by
  induction vs with
  | nil => intro s; simp [pushAll]
  | cons v vs ih =>
    intro s
    rw [pushAll_cons, ih (Push s v)]
    simp [Push]

/-- Popping a stack whose data ends in `v` yields `v` and drops it. -/
theorem Pop_concat {T : Type} [Inhabited T] (l : List T) (v : T) :
    Pop (⟨l ++ [v]⟩ : Stack T) = ((v, true), ⟨l⟩) := by
  simp [Pop, List.getLast?_concat, List.dropLast_concat]

/-- Popping an empty stack returns the zero value, `false` and the
unchanged stack. -/
theorem Pop_nil {T : Type} [Inhabited T] :
    Pop (⟨[]⟩ : Stack T) = ((default, false), ⟨[]⟩) := rfl

/-- Draining a stack by as many pops as it has elements returns the data
reversed and ends on the empty stack. -/
theorem popK_reverse {T : Type} [Inhabited T] (l : List T) :
    popK l.length (⟨l⟩ : Stack T) = (l.reverse, (⟨[]⟩ : Stack T)) := by
  induction l using List.reverseRecOn with
  | nil => rfl
  | append_singleton l v ih =>
    have hlen : (l ++ [v]).length = l.length + 1 := by simp
    rw [hlen]
    show ((Pop (⟨l ++ [v]⟩ : Stack T)).1.1 ::
        (popK l.length (Pop (⟨l ++ [v]⟩ : Stack T)).2).1,
        (popK l.length (Pop (⟨l ++ [v]⟩ : Stack T)).2).2) =
      ((l ++ [v]).reverse, (⟨[]⟩ : Stack T))
    rw [Pop_concat, ih]
    simp

/-- One pop decreases the length by one (truncated at zero). -/
theorem Pop_len {T : Type} [Inhabited T] (s : Stack T) :
    Len (Pop s).2 = Len s - 1 := by
  rcases s with ⟨l⟩
  rcases l.eq_nil_or_concat with rfl | ⟨l', v, rfl⟩
  · simp [Pop, Len]
  · rw [List.concat_eq_append, Pop_concat]
    simp [Len]

/-- `m` pops decrease the length by `m` (truncated at zero). -/
theorem popK_len {T : Type} [Inhabited T] (m : Nat) :
    ∀ s : Stack T, Len (popK m s).2 = Len s - m := by
  induction m with
  | zero => intro s; simp [popK]
  | succ m ih =>
    intro s
    show Len (popK m (Pop s).2).2 = _
    rw [ih, Pop_len]
    omega

/-- A consumer that always continues observes the whole list. -/
theorem allLoop_true {T : Type} (l : List T) :
    allLoop l (fun _ => true) = l := by
  induction l with
  | nil => rfl
  | cons v rest ih => simp [allLoop, ih]

/-- The pairwise loop on a cursor and its one-step advance computes the
zip of the list with its tail. -/
theorem pairwiseLoop_tail_eq_zip {V : Type} :
    ∀ l : List V, pairwiseLoop l l.tail = l.zip l.tail
  | [] => rfl
  | [_] => rfl
  | v :: w :: rest => by
    have ih := pairwiseLoop_tail_eq_zip (w :: rest)
    simp only [List.tail_cons] at ih ⊢
    simp [pairwiseLoop, ih]

/-- Peek returns the receiver unchanged. -/
theorem Peek_state {T : Type} [Inhabited T] (s : Stack T) :
    (Peek s).2 = s := by
  cases h : s.data.getLast? <;> simp [Peek, h]

/-- C1: pushing the sequence `vs` onto an empty stack and then popping
`vs.length` times returns the values in exact reverse push order, and the
next (`N+1`-th) Pop reports absence by returning `false`. -/
theorem c1_push_pop_reverse {T : Type} [Inhabited T] (vs : List T) :
    (popK vs.length (pushAll (NewStack T) vs)).1 = vs.reverse ∧
    (Pop (popK vs.length (pushAll (NewStack T) vs)).2).1.2 = false := by
  have hdata : pushAll (NewStack T) vs = (⟨vs⟩ : Stack T) :=
    Stack_eq (by simp [pushAll_data, NewStack])
  rw [hdata, popK_reverse]
  exact ⟨rfl, rfl⟩

/-- C2: the Pairwise adapter on any finite sequence produces exactly the
adjacent pairs — the zip of the sequence with its own tail, hence one pair
fewer than the input length; it produces no pairs on inputs of fewer than
two elements, and over the stack built by pushing 0,1,2,3,4 it yields
exactly (0,1),(1,2),(2,3),(3,4). -/
theorem c2_pairwise_adjacent :
    (∀ (V : Type) (l : List V), Pairwise l = l.zip l.tail) ∧
    (∀ (V : Type) (l : List V), (Pairwise l).length = l.length - 1) ∧
    Pairwise ([] : List Nat) = [] ∧
    Pairwise [42] = [] ∧
    Pairwise (All (pushAll (NewStack Nat) [0, 1, 2, 3, 4]) (fun _ => true)) =
      [(0, 1), (1, 2), (2, 3), (3, 4)] := by
  have hzip : ∀ (V : Type) (l : List V), Pairwise l = l.zip l.tail := by
    intro V l
    simpa [Pairwise, List.drop_one] using pairwiseLoop_tail_eq_zip l
  refine ⟨hzip, ?_, by decide, by decide, by decide⟩
  intro V l
  rw [hzip]
  simp [List.length_zip]

/-- C3: the plain traversal yields the stack's elements in bottom-to-top
order: over a stack built by pushing `vs` in order it yields exactly `vs`,
it is the reverse of the pop order, and over the stack built by pushing
0,1,2,3,4 it yields exactly 0,1,2,3,4. -/
theorem c3_all_bottom_to_top {T : Type} [Inhabited T] (s : Stack T)
    (vs : List T) :
    All (pushAll (NewStack T) vs) (fun _ => true) = vs ∧
    All s (fun _ => true) = (popK (Len s) s).1.reverse ∧
    All (pushAll (NewStack Nat) [0, 1, 2, 3, 4]) (fun _ => true) =
      [0, 1, 2, 3, 4] := by
  refine ⟨?_, ?_, by decide⟩
  · rw [All, allLoop_true]
    simp [pushAll_data, NewStack]
  · rcases s with ⟨l⟩
    rw [show Len (⟨l⟩ : Stack T) = l.length from rfl, popK_reverse]
    simp [All, allLoop_true]

/-- C4: Pop on a non-empty stack removes and returns the top element with
`true` and the length decreases by exactly one; Pop and Peek on an empty
stack both return the zero value of T with `false` (total functions, no
exception). -/
theorem c4_pop_peek_contract {T : Type} [Inhabited T] (s t : Stack T)
    (hs : s.data ≠ []) (ht : t.data = []) :
    (Pop s).1 = (s.data.getLast hs, true) ∧
    (Pop s).2.data = s.data.dropLast ∧
    Len (Pop s).2 + 1 = Len s ∧
    Pop t = ((default, false), t) ∧
    Peek t = ((default, false), t) := by
  have hlast : s.data.getLast? = some (s.data.getLast hs) :=
    List.getLast?_eq_getLast s.data hs
  have ht' : t.data.getLast? = none := by simp [ht]
  refine ⟨?_, ?_, ?_, ?_, ?_⟩
  · simp [Pop, hlast]
  · simp [Pop, hlast]
  · rw [Pop_len]
    have : 0 < Len s := by
      simpa [Len, List.length_pos] using hs
    omega
  · simp [Pop, ht']
  · simp [Peek, ht']

/-- C4 witness: the contract evaluated at the one-element stack `[7]` and
the empty stack. -/
theorem c4_pop_peek_contract_witness :
    (Pop (⟨[7]⟩ : Stack Nat)).1 = (7, true) ∧
    (Pop (⟨[7]⟩ : Stack Nat)).2.data = [] ∧
    Len (Pop (⟨[7]⟩ : Stack Nat)).2 + 1 = Len (⟨[7]⟩ : Stack Nat) ∧
    Pop (NewStack Nat) = ((default, false), NewStack Nat) ∧
    Peek (NewStack Nat) = ((default, false), NewStack Nat) := by
  have h := c4_pop_peek_contract (⟨[7]⟩ : Stack Nat) (NewStack Nat)
    (by simp) rfl
  simpa using h

/-- C5: after `k` pushes followed by `m ≤ k` pops on an initially empty
stack, `Len` equals `k - m`; `Len` is a natural number hence never
negative, and `IsEmpty` holds exactly when `Len` is zero. -/
theorem c5_len_isempty {T : Type} [Inhabited T] (vs : List T) (m : Nat)
    (hm : m ≤ vs.length) :
    Len (popK m (pushAll (NewStack T) vs)).2 = vs.length - m ∧
    (∀ s : Stack T, 0 ≤ Len s) ∧
    (∀ s : Stack T, IsEmpty s = true ↔ Len s = 0) := by
  refine ⟨?_, fun s => Nat.zero_le _, fun s => ?_⟩
  · rw [popK_len]
    have : Len (pushAll (NewStack T) vs) = vs.length := by
      simp [Len, pushAll_data, NewStack]
    omega
  · simp [IsEmpty, Len]

/-- C5 witness: three pushes and two pops on Nat. -/
theorem c5_len_isempty_witness :
    (2 : Nat) ≤ [10, 20, 30].length ∧
    (Len (popK 2 (pushAll (NewStack Nat) [10, 20, 30])).2 =
        [10, 20, 30].length - 2 ∧
      (∀ s : Stack Nat, 0 ≤ Len s) ∧
      (∀ s : Stack Nat, IsEmpty s = true ↔ Len s = 0)) :=
  ⟨by decide, c5_len_isempty [10, 20, 30] 2 (by decide)⟩

/-- C6: Peek never mutates: it hands the receiver back unchanged, so a
repeated Peek with no intervening Push or Pop returns the same value and
flag, and the length is unchanged. -/
theorem c6_peek_pure {T : Type} [Inhabited T] (s : Stack T) :
    (Peek s).2 = s ∧
    Peek (Peek s).2 = Peek s ∧
    Len (Peek s).2 = Len s := by
  have h := Peek_state s
  exact ⟨h, by rw [h], by rw [h]⟩

/-- C7: a consumer that stops the traversal after the first element
observes only that first element (the loop returns on the stop signal), and
an independent full traversal of the same stack still yields the complete
original sequence — in this pure embedding a traversal takes the stack as
read-only input and cannot change its contents. -/
theorem c7_early_stop {T : Type} (s : Stack T) :
    All s (fun _ => false) = s.data.take 1 ∧
    (All s (fun _ => false)).length ≤ 1 ∧
    All s (fun _ => true) = s.data := by
  refine ⟨?_, ?_, ?_⟩
  · rcases s with ⟨l⟩
    cases l <;> simp [All, allLoop]
  · rcases s with ⟨l⟩
    cases l <;> simp [All, allLoop]
  · rw [All, allLoop_true]

/-- C8: the concrete scenario: push 0..4; Len is 5; Pop returns (4, true);
Len becomes 4; Peek returns (3, true) and Len stays 4; the plain traversal
then yields 0,1,2,3 and the pairwise traversal yields (0,1),(1,2),(2,3). -/
theorem c8_concrete_scenario :
    Len (pushAll (NewStack Nat) [0, 1, 2, 3, 4]) = 5 ∧
    (Pop (pushAll (NewStack Nat) [0, 1, 2, 3, 4])).1 = (4, true) ∧
    Len (Pop (pushAll (NewStack Nat) [0, 1, 2, 3, 4])).2 = 4 ∧
    (Peek (Pop (pushAll (NewStack Nat) [0, 1, 2, 3, 4])).2).1 = (3, true) ∧
    Len (Peek (Pop (pushAll (NewStack Nat) [0, 1, 2, 3, 4])).2).2 = 4 ∧
    All (Pop (pushAll (NewStack Nat) [0, 1, 2, 3, 4])).2 (fun _ => true) =
      [0, 1, 2, 3] ∧
    Pairwise (All (Pop (pushAll (NewStack Nat) [0, 1, 2, 3, 4])).2
        (fun _ => true)) =
      [(0, 1), (1, 2), (2, 3)] := by
  decide

/-- C9: a failed Pop is a no-op: whenever Pop reports absence the returned
stack is exactly the input stack, its length is 0 before and after, so
every subsequent operation behaves as if the failed Pop never happened. -/
theorem c9_pop_empty_noop {T : Type} [Inhabited T] (s : Stack T)
    (h : (Pop s).1.2 = false) :
    (Pop s).2 = s ∧ Len s = 0 ∧ Len (Pop s).2 = 0 := by
  rcases s with ⟨l⟩
  rcases l.eq_nil_or_concat with rfl | ⟨l', v, rfl⟩
  · exact ⟨rfl, rfl, rfl⟩
  · rw [List.concat_eq_append, Pop_concat] at h
    cases h

/-- C9 witness: the failed Pop on the freshly created empty stack. -/
theorem c9_pop_empty_noop_witness :
    (Pop (NewStack Nat)).1.2 = false ∧
    ((Pop (NewStack Nat)).2 = NewStack Nat ∧
      Len (NewStack Nat) = 0 ∧ Len (Pop (NewStack Nat)).2 = 0) :=
  ⟨rfl, c9_pop_empty_noop (NewStack Nat) rfl⟩

/-- C10: Push followed by Pop is a round trip: from any stack state `s`,
pushing `v` and popping returns `(v, true)` and restores exactly `s`. -/
theorem c10_push_pop_roundtrip {T : Type} [Inhabited T] (s : Stack T)
    (v : T) :
    Pop (Push s v) = ((v, true), s) := by
  rcases s with ⟨l⟩
  simpa [Push] using Pop_concat l v

end GoStack
